import Mathlib

/-!
Verification development for the datastar-rs SSE encoding library.

Strings are modelled as lists of characters (`Str`).  The functions below are
shallow embeddings of the Rust source:

* `splitOnChar`, `rustLines` model `str::split` / `str::lines` as used by the
  generator (split on a newline, drop a final empty segment, and strip a
  trailing carriage return from every newline-terminated line);
* `send` models `ServerSentEventGenerator::send` (src/generator.rs);
* `merge_fragments`, `remove_fragments`, `merge_signals`, `remove_signals`,
  `execute_script` model the five public encoding operations, each first
  building its `data_pairs` list exactly as the source does;
* the `*Config` structures model the option records of src/fragments.rs,
  src/scripts.rs and src/signals.rs together with their `Default` impls and
  their duration setters (a panicking `expect` is modelled as `none`);
* the request-extraction types model src/request.rs, with the external
  serde parsers taken as parameters;
* the header tables model the three `IntoResponse` impls of src/response.rs
  and src/axum.rs.
-/

abbrev Str := List Char

/-- `str::split(sep)`: all segments between occurrences of `sep`,
including empty ones; always returns at least one segment. -/
def splitOnChar (sep : Char) : Str → List Str
  | [] => [[]]
  | c :: cs =>
    if c = sep then [] :: splitOnChar sep cs
    else
      match splitOnChar sep cs with
      | [] => [[c]]
      | p :: ps => (c :: p) :: ps

/-- Strip one trailing carriage return, as Rust `lines` does to every
newline-terminated line. -/
def stripCR (l : Str) : Str :=
  if l.getLast? = some '\r' then l.dropLast else l

/-- `str::lines`: split on `'\n'`; every newline-terminated segment loses a
trailing `'\r'`; a final segment not terminated by a newline is kept verbatim,
and a final empty segment is dropped. -/
def rustLines (s : Str) : List Str :=
  let ps := splitOnChar '\n' s
  ps.dropLast.map stripCR ++ (if ps.getLast? = some [] then [] else ps.getLastD [] :: [])

/-- Split a finished event block into its lines: segments between newlines,
without the empty segment that follows the final newline.  This is how the
blank-line structure of an emitted block is inspected. -/
def blockLines (s : Str) : List Str :=
  let ps := splitOnChar '\n' s
  if ps.getLast? = some [] then ps.dropLast else ps

def digitChar : Nat → Char
  | 0 => '0'
  | 1 => '1'
  | 2 => '2'
  | 3 => '3'
  | 4 => '4'
  | 5 => '5'
  | 6 => '6'
  | 7 => '7'
  | 8 => '8'
  | 9 => '9'
  | _ + 10 => '*'

def natCharsAux : Nat → Nat → Str
  | 0, _ => []
  | fuel + 1, n =>
    if n < 10 then [digitChar n]
    else natCharsAux fuel (n / 10) ++ [digitChar (n % 10)]

/-- The decimal rendering of a natural number, as produced by Rust
`u32::to_string` / `format!`. -/
def natChars (n : Nat) : Str := natCharsAux (n + 1) n

/-- Every carriage return in the string is immediately followed by a line
feed: the input consists of CRLF-terminated (or LF-terminated) lines. -/
def crOnlyBeforeNl : Str → Prop
  | [] => True
  | c :: cs => (c = '\r' → cs.head? = some '\n') ∧ crOnlyBeforeNl cs

instance instDecCrOnlyBeforeNl : (s : Str) → Decidable (crOnlyBeforeNl s)
  | [] => .isTrue trivial
  | c :: cs =>
    haveI : Decidable (crOnlyBeforeNl cs) := instDecCrOnlyBeforeNl cs
    decidable_of_iff ((c = '\r' → cs.head? = some '\n') ∧ crOnlyBeforeNl cs)
      (by rw [crOnlyBeforeNl])

/-! ## Option records (src/fragments.rs, src/scripts.rs, src/signals.rs) -/

def DEFAULT_RETRY_DURATION : Nat := 1000

def DEFAULT_SETTLE_DURATION : Nat := 300

/-- `u32::MAX`, the bound checked by the duration setters. -/
def U32_MAX : Nat := 4294967295

inductive FragmentMergeMode where
  | Morph
  | Inner
  | Outer
  | Prepend
  | Append
  | Before
  | After
  | UpsertAttributes
deriving DecidableEq

def FragmentMergeMode.as_datastar_name : FragmentMergeMode → Str
  | .Morph => "morph".data
  | .Inner => "inner".data
  | .Outer => "outer".data
  | .Prepend => "prepend".data
  | .Append => "append".data
  | .Before => "before".data
  | .After => "after".data
  | .UpsertAttributes => "upsertAttributes".data

structure MergeFragmentsConfig where
  merge_mode : FragmentMergeMode
  selector : Option Str
  settle_duration : Nat
  use_view_transition : Bool
  event_id : Option Str
  retry_duration : Nat
deriving DecidableEq

def MergeFragmentsConfig.default : MergeFragmentsConfig :=
  { merge_mode := .Morph
    selector := none
    settle_duration := DEFAULT_SETTLE_DURATION
    use_view_transition := false
    event_id := none
    retry_duration := DEFAULT_RETRY_DURATION }

structure RemoveFragmentsConfig where
  settle_duration : Nat
  use_view_transition : Bool
  event_id : Option Str
  retry_duration : Nat
deriving DecidableEq

def RemoveFragmentsConfig.default : RemoveFragmentsConfig :=
  { settle_duration := DEFAULT_SETTLE_DURATION
    use_view_transition := false
    event_id := none
    retry_duration := DEFAULT_RETRY_DURATION }

structure MergeSignalsConfig where
  only_if_missing : Bool
  event_id : Option Str
  retry_duration : Nat
deriving DecidableEq

def MergeSignalsConfig.default : MergeSignalsConfig :=
  { only_if_missing := false
    event_id := none
    retry_duration := DEFAULT_RETRY_DURATION }

structure RemoveSignalsConfig where
  event_id : Option Str
  retry_duration : Nat
deriving DecidableEq

def RemoveSignalsConfig.default : RemoveSignalsConfig :=
  { event_id := none
    retry_duration := DEFAULT_RETRY_DURATION }

structure ExecuteScriptConfig where
  auto_remove : Bool
  attributes : List Str
  event_id : Option Str
  retry_duration : Nat
deriving DecidableEq

def ExecuteScriptConfig.default : ExecuteScriptConfig :=
  { auto_remove := false
    attributes := []
    event_id := none
    retry_duration := DEFAULT_RETRY_DURATION }

/-! ### Duration setters

The Rust setters take a `std::time::Duration`, convert it to whole
milliseconds and `try_into` a `u32`, panicking (`expect`) when the value
exceeds `u32::MAX`.  A setter is modelled as a function taking the duration
in milliseconds; the panic is modelled as `none`. -/

def MergeFragmentsConfig.retry_duration_set (cfg : MergeFragmentsConfig)
    (millis : Nat) : Option MergeFragmentsConfig :=
  if millis ≤ U32_MAX then some { cfg with retry_duration := millis } else none

def MergeFragmentsConfig.settle_duration_set (cfg : MergeFragmentsConfig)
    (millis : Nat) : Option MergeFragmentsConfig :=
  if millis ≤ U32_MAX then some { cfg with settle_duration := millis } else none

def ExecuteScriptConfig.retry_duration_set (cfg : ExecuteScriptConfig)
    (millis : Nat) : Option ExecuteScriptConfig :=
  if millis ≤ U32_MAX then some { cfg with retry_duration := millis } else none

/-! ## The event generator (src/generator.rs) -/

def MERGE_FRAGMENTS : Str := "datastar-merge-fragments".data

def MERGE_SIGNALS : Str := "datastar-merge-signals".data

def REMOVE_FRAGMENTS : Str := "datastar-remove-fragments".data

def REMOVE_SIGNALS : Str := "datastar-remove-signals".data

def EXECUTE_SCRIPT : Str := "datastar-execute-script".data

/-- One rendered data line body (without its newline): `data: {k} {v}`. -/
def dataLine (p : Str × Str) : Str :=
  "data: ".data ++ p.1 ++ [' '] ++ p.2

/-- `ServerSentEventGenerator::send`: the full event block yielded for one
event: the `event:` line, an `id:` line when an event id is set, a
`retryDuration:` line when the retry duration is not the default, one
`data:` line per pair, and the terminating newline. -/
def send (event_type : Str) (data_pairs : List (Str × Str))
    (event_id : Option Str) (retry_duration : Nat) : Str :=
  "event: ".data ++ event_type ++ ['\n']
    ++ (match event_id with
        | some i => "id: ".data ++ i ++ ['\n']
        | none => [])
    ++ (if retry_duration ≠ DEFAULT_RETRY_DURATION then
          "retryDuration: ".data ++ natChars retry_duration ++ ['\n']
        else [])
    ++ (data_pairs.map fun p => dataLine p ++ ['\n']).flatten
    ++ ['\n']

/-- The `data_pairs` list built by `merge_fragments`. -/
def merge_fragments_pairs (fragments : Str) (cfg : MergeFragmentsConfig) :
    List (Str × Str) :=
  (if cfg.merge_mode ≠ FragmentMergeMode.Morph then
     [("mergeMode".data, cfg.merge_mode.as_datastar_name)]
   else [])
  ++ (match cfg.selector with
      | some sel => [("selector".data, sel)]
      | none => [])
  ++ (if cfg.settle_duration ≠ DEFAULT_SETTLE_DURATION then
        [("settleDuration".data, natChars cfg.settle_duration)]
      else [])
  ++ (if cfg.use_view_transition then
        [("useViewTransition".data, "true".data)]
      else [])
  ++ (rustLines fragments).map (fun line => ("fragments".data, line))

def merge_fragments (fragments : Str) (cfg : MergeFragmentsConfig) : Str :=
  send MERGE_FRAGMENTS (merge_fragments_pairs fragments cfg)
    cfg.event_id cfg.retry_duration

/-- The `data_pairs` list built by `remove_fragments`. -/
def remove_fragments_pairs (selector : Str) (cfg : RemoveFragmentsConfig) :
    List (Str × Str) :=
  [("selector".data, selector)]
  ++ (if cfg.settle_duration ≠ DEFAULT_SETTLE_DURATION then
        [("settleDuration".data, natChars cfg.settle_duration)]
      else [])
  ++ (if cfg.use_view_transition then
        [("useViewTransition".data, "true".data)]
      else [])

def remove_fragments (selector : Str) (cfg : RemoveFragmentsConfig) : Str :=
  send REMOVE_FRAGMENTS (remove_fragments_pairs selector cfg)
    cfg.event_id cfg.retry_duration

/-- The `data_pairs` list built by `merge_signals`. -/
def merge_signals_pairs (signals : Str) (cfg : MergeSignalsConfig) :
    List (Str × Str) :=
  (if cfg.only_if_missing then [("onlyIfMissing".data, "true".data)] else [])
  ++ (rustLines signals).map (fun line => ("signals".data, line))

def merge_signals (signals : Str) (cfg : MergeSignalsConfig) : Str :=
  send MERGE_SIGNALS (merge_signals_pairs signals cfg)
    cfg.event_id cfg.retry_duration

/-- The `data_pairs` list built by `remove_signals`. -/
def remove_signals_pairs (paths : List Str) : List (Str × Str) :=
  paths.map (fun path => ("paths".data, path))

def remove_signals (paths : List Str) (cfg : RemoveSignalsConfig) : Str :=
  send REMOVE_SIGNALS (remove_signals_pairs paths)
    cfg.event_id cfg.retry_duration

/-- The `data_pairs` list built by `execute_script`. -/
def execute_script_pairs (script : Str) (cfg : ExecuteScriptConfig) :
    List (Str × Str) :=
  (if !cfg.auto_remove then [("autoRemove".data, "false".data)] else [])
  ++ cfg.attributes.map (fun a => ("attributes".data, a))
  ++ (rustLines script).map (fun line => ("script".data, line))

def execute_script (script : Str) (cfg : ExecuteScriptConfig) : Str :=
  send EXECUTE_SCRIPT (execute_script_pairs script cfg)
    cfg.event_id cfg.retry_duration

/-! ## Response headers (src/response.rs, src/axum.rs) -/

/-- Headers set by `FullDatastarResponse::into_response` (src/response.rs). -/
def full_response_headers : List (Str × Str) :=
  [("Cache-Control".data, "no-cache".data),
   ("Content-Type".data, "text/event-stream".data),
   ("Connection".data, "keep-alive".data)]

/-- Headers set by `StreamingDatastarResponse::into_response`
(src/response.rs). -/
def streaming_response_headers : List (Str × Str) :=
  [("Cache-Control".data, "no-cache".data),
   ("Content-Type".data, "text/event-stream".data),
   ("Connection".data, "keep-alive".data)]

/-- Headers set by the `IntoResponse` impl for `DatastarResponse`
(src/axum.rs).  Note the source writes the value `"nocache"`. -/
def axum_response_headers : List (Str × Str) :=
  [("Cache-Control".data, "nocache".data),
   ("Connection".data, "keep-alive".data),
   ("Content-Type".data, "text/event-stream".data)]

/-! ## Request extraction (src/request.rs)

The serde parsers (`serde_urlencoded::from_str`, `serde_json::from_str`,
`serde_json::from_slice`) and the body reader are external collaborators;
they appear as parameters, a failing parse being `none`. -/

inductive DatastarQueryRejection where
  | FailedToDeserializeDatastarQueryString
  | DatastarQueryNotFound
  | FailedToDeserializeDatastarInnerJson
deriving DecidableEq

/-- The body message chosen by `DatastarQueryRejection::into_response`. -/
def DatastarQueryRejection.msg : DatastarQueryRejection → Str
  | .FailedToDeserializeDatastarQueryString =>
      "Failed to deserialize datastar query string".data
  | .FailedToDeserializeDatastarInnerJson =>
      "Failed to deserialize inner json of datastar query string".data
  | .DatastarQueryNotFound =>
      "Query string with the format `?datastar=<json> was not found`".data

/-- `DatastarQueryRejection::into_response`: HTTP status and body. -/
def DatastarQueryRejection.response (r : DatastarQueryRejection) : Nat × Str :=
  (400, r.msg)

/-- `DatastarQuery::try_from_uri`: take the query string of the uri (empty when
absent), parse it as url-encoded pairs, find the `datastar` parameter, and
parse its value as JSON into the target shape. -/
def try_from_uri {T : Type} (urlencoded_from_str : Str → Option (List (Str × Str)))
    (json_from_str : Str → Option T) (query : Option Str) :
    Except DatastarQueryRejection T :=
  let query_string := query.getD []
  match urlencoded_from_str query_string with
  | none => .error .FailedToDeserializeDatastarQueryString
  | some query_params =>
    match (query_params.find? fun kv => kv.1 = "datastar".data).map (fun kv => kv.2) with
    | none => .error .DatastarQueryNotFound
    | some datastar_json_string =>
      match json_from_str datastar_json_string with
      | none => .error .FailedToDeserializeDatastarInnerJson
      | some datastar_store => .ok datastar_store

inductive DatastarJsonRejection where
  | FailedToDecodeBytes
  | FailedToDeserializeJson
deriving DecidableEq

/-- `DatastarJsonRejection::into_response`: HTTP status and body.  The same
message is used for every variant. -/
def DatastarJsonRejection.response (_ : DatastarJsonRejection) : Nat × Str :=
  (400, "Failed to deserialize json body".data)

/-- `DatastarJson::from_request`: read the whole body (`none` models a body
that cannot be read), then parse it as JSON into the target shape. -/
def from_request {T : Type} (body : Option Str) (json_from_slice : Str → Option T) :
    Except DatastarJsonRejection T :=
  match body with
  | none => .error .FailedToDecodeBytes
  | some bytes =>
    match json_from_slice bytes with
    | none => .error .FailedToDeserializeJson
    | some value => .ok value

/-- Model of `serde_urlencoded::from_str::<Vec<(String, String)>>` adequate
for the concrete scenarios: split on `&`, then each `key=value` pair on its
first `=`; it never fails on the inputs considered here. -/
def urlencoded_simple (s : Str) : Option (List (Str × Str)) :=
  some ((splitOnChar '&' s).filterMap fun kv =>
    match splitOnChar '=' kv with
    | [k, v] => some (k, v)
    | _ => none)

/-- Model of `serde_json::from_str` against the target shape
`\x7b theme: string \x7d`: accepts exactly `\x7b"theme":"<value>"\x7d` with a
quote-free value and yields the value. -/
def parse_theme_json (s : Str) : Option Str :=
  let pre := "\x7b\"theme\":\"".data
  let suf := "\"\x7d".data
  let mid := s.drop pre.length
  let value := mid.take (mid.length - suf.length)
  if s.take pre.length = pre ∧ suf.length ≤ mid.length ∧
      mid.drop (mid.length - suf.length) = suf ∧ '"' ∉ value then
    some value
  else none

/-! ## Basic lemmas about the line model -/

theorem splitOnChar_ne_nil (sep : Char) (s : Str) : splitOnChar sep s ≠ [] := by
  induction s with
  | nil => simp [splitOnChar]
  | cons c cs ih =>
    by_cases hc : c = sep
    · simp [splitOnChar, hc]
    · cases hps : splitOnChar sep cs with
      | nil => exact absurd hps ih
      | cons p ps => simp [splitOnChar, hc, hps]

theorem splitOnChar_not_sep (sep : Char) (s : Str) :
    ∀ p ∈ splitOnChar sep s, sep ∉ p := by
  induction s with
  | nil =>
    intro p hp
    simp only [splitOnChar, List.mem_singleton] at hp
    simp [hp]
  | cons c cs ih =>
    intro p hp
    by_cases hc : c = sep
    · simp only [splitOnChar, if_pos hc, List.mem_cons] at hp
      rcases hp with h | h
      · simp [h]
      · exact ih p h
    · cases hps : splitOnChar sep cs with
      | nil => exact absurd hps (splitOnChar_ne_nil sep cs)
      | cons q qs =>
        simp only [splitOnChar, if_neg hc, hps, List.mem_cons] at hp
        rcases hp with h | h
        · subst h
          intro hmem
          rcases List.mem_cons.mp hmem with h | h
          · exact hc h.symm
          · exact ih q (hps ▸ List.mem_cons_self q qs) h
        · exact ih p (hps ▸ List.mem_cons_of_mem q h)

theorem splitOnChar_append_term (sep : Char) (l t : Str) (h : sep ∉ l) :
    splitOnChar sep (l ++ sep :: t) = l :: splitOnChar sep t := by
  induction l with
  | nil => simp [splitOnChar]
  | cons c l ih =>
    have hc : ¬ c = sep := fun e => h (e ▸ List.mem_cons_self c l)
    have hl : sep ∉ l := fun m => h (List.mem_cons_of_mem _ m)
    simp only [List.cons_append, splitOnChar, if_neg hc]
    rw [List.append_eq, ih hl]

theorem splitOnChar_flatten (sep : Char) (L : List Str)
    (h : ∀ l ∈ L, sep ∉ l) :
    splitOnChar sep ((L.map (· ++ [sep])).flatten) = L ++ [[]] := by
  induction L with
  | nil => simp [splitOnChar]
  | cons l L ih =>
    have hl : sep ∉ l := h l (List.mem_cons_self l L)
    have hL : ∀ x ∈ L, sep ∉ x := fun x hx => h x (List.mem_cons_of_mem l hx)
    simp only [List.map_cons, List.flatten_cons, List.append_assoc,
      List.singleton_append]
    rw [splitOnChar_append_term sep l _ hl, ih hL]
    rfl

theorem blockLines_flatten (L : List Str) (h : ∀ l ∈ L, '\n' ∉ l) :
    blockLines ((L.map (· ++ ['\n'])).flatten) = L := by
  unfold blockLines
  rw [splitOnChar_flatten '\n' L h]
  simp [List.getLast?_concat, List.dropLast_concat]

theorem digitChar_ne_nl_cr (d : Nat) : digitChar d ≠ '\n' ∧ digitChar d ≠ '\r' := by
  unfold digitChar
  split <;> exact ⟨by decide, by decide⟩

theorem natCharsAux_mem (fuel : Nat) :
    ∀ n c, c ∈ natCharsAux fuel n → ∃ d, c = digitChar d := by
  induction fuel with
  | zero => intro n c hc; simp [natCharsAux] at hc
  | succ fuel ih =>
    intro n c hc
    by_cases hn : n < 10
    · simp only [natCharsAux, if_pos hn, List.mem_singleton] at hc
      exact ⟨n, hc⟩
    · simp only [natCharsAux, if_neg hn, List.mem_append, List.mem_singleton] at hc
      rcases hc with h | h
      · exact ih (n / 10) c h
      · exact ⟨n % 10, h⟩

theorem natChars_no_nl (n : Nat) : '\n' ∉ natChars n := by
  intro h
  obtain ⟨d, hd⟩ := natCharsAux_mem (n + 1) n '\n' h
  exact (digitChar_ne_nl_cr d).1 hd.symm

theorem natChars_no_cr (n : Nat) : '\r' ∉ natChars n := by
  intro h
  obtain ⟨d, hd⟩ := natCharsAux_mem (n + 1) n '\r' h
  exact (digitChar_ne_nl_cr d).2 hd.symm

theorem stripCR_mem {c : Char} {l : Str} (h : c ∈ stripCR l) : c ∈ l := by
  unfold stripCR at h
  split at h
  · exact List.dropLast_subset l h
  · exact h

theorem rustLines_no_nl (s : Str) : ∀ l ∈ rustLines s, '\n' ∉ l := by
  intro l hl
  unfold rustLines at hl
  simp only [List.mem_append] at hl
  rcases hl with h | h
  · obtain ⟨p, hp, hpl⟩ := List.mem_map.mp h
    intro hc
    exact splitOnChar_not_sep '\n' s p (List.dropLast_subset _ hp)
      (stripCR_mem (hpl ▸ hc))
  · split at h
    · simp at h
    · simp only [List.mem_singleton] at h
      subst h
      intro hc
      have hne := splitOnChar_ne_nil '\n' s
      have hmem : (splitOnChar '\n' s).getLastD [] ∈ splitOnChar '\n' s := by
        rw [List.getLastD_eq_getLast?, List.getLast?_eq_getLast_of_ne_nil hne]
        exact List.getLast_mem hne
      exact splitOnChar_not_sep '\n' s _ hmem hc

theorem no_nl_append {a b : Str} (ha : '\n' ∉ a) (hb : '\n' ∉ b) :
    '\n' ∉ a ++ b := by
  intro h
  rcases List.mem_append.mp h with h | h
  · exact ha h
  · exact hb h

/-- The block built by `send` is the newline-terminated flattening of its
line list: the `event:` line, the optional `id:` and `retryDuration:` lines,
the data lines, and one final empty line. -/
theorem send_eq_flatten (et : Str) (pairs : List (Str × Str)) (i : Option Str)
    (rd : Nat) :
    send et pairs i rd =
      ((("event: ".data ++ et)
          :: ((match i with | some x => ["id: ".data ++ x] | none => [])
              ++ (if rd ≠ DEFAULT_RETRY_DURATION then
                    ["retryDuration: ".data ++ natChars rd] else [])
              ++ pairs.map dataLine
              ++ [[]])).map (fun l => l ++ ['\n'])).flatten := by
  rcases i with _ | x <;> by_cases hrd : rd ≠ DEFAULT_RETRY_DURATION <;>
    simp [send, hrd, List.map_append, List.flatten_append, List.map_map,
      Function.comp_def, List.append_assoc]

theorem blockLines_send (et : Str) (pairs : List (Str × Str)) (i : Option Str)
    (rd : Nat) (het : '\n' ∉ et)
    (hid : ∀ x, i = some x → '\n' ∉ x)
    (hp : ∀ p ∈ pairs, '\n' ∉ p.1 ∧ '\n' ∉ p.2) :
    blockLines (send et pairs i rd) =
      ("event: ".data ++ et)
        :: ((match i with | some x => ["id: ".data ++ x] | none => [])
            ++ (if rd ≠ DEFAULT_RETRY_DURATION then
                  ["retryDuration: ".data ++ natChars rd] else [])
            ++ pairs.map dataLine
            ++ [[]]) := by
  rw [send_eq_flatten]
  apply blockLines_flatten
  intro l hl
  rcases List.mem_cons.mp hl with h | h
  · subst h
    exact no_nl_append (by decide) het
  · rcases List.mem_append.mp h with h | h
    · rcases List.mem_append.mp h with h | h
      · rcases List.mem_append.mp h with h | h
        · rcases i with _ | x
          · simp at h
          · simp only [List.mem_singleton] at h
            subst h
            exact no_nl_append (by decide) (hid x rfl)
        · split at h
          · simp only [List.mem_singleton] at h
            subst h
            exact no_nl_append (by decide) (natChars_no_nl rd)
          · simp at h
      · obtain ⟨p, hpm, hpl⟩ := List.mem_map.mp h
        subst hpl
        obtain ⟨h1, h2⟩ := hp p hpm
        exact no_nl_append (no_nl_append (no_nl_append (by decide) h1) (by decide)) h2
    · simp only [List.mem_singleton] at h
      subst h
      simp

theorem as_datastar_name_no_nl (m : FragmentMergeMode) :
    '\n' ∉ m.as_datastar_name := by
  cases m <;> decide

theorem merge_fragments_pairs_no_nl (fragments : Str)
    (cfg : MergeFragmentsConfig)
    (hsel : ∀ s, cfg.selector = some s → '\n' ∉ s) :
    ∀ p ∈ merge_fragments_pairs fragments cfg, '\n' ∉ p.1 ∧ '\n' ∉ p.2 := by
  intro p hp
  unfold merge_fragments_pairs at hp
  rcases List.mem_append.mp hp with hp | hp
  · rcases List.mem_append.mp hp with hp | hp
    · rcases List.mem_append.mp hp with hp | hp
      · rcases List.mem_append.mp hp with hp | hp
        · split at hp
          · simp only [List.mem_singleton] at hp
            subst hp
            exact ⟨(by decide : '\n' ∉ ("mergeMode".data : Str)),
              as_datastar_name_no_nl cfg.merge_mode⟩
          · simp at hp
        · rcases hc : cfg.selector with _ | s
          · rw [hc] at hp; simp at hp
          · rw [hc] at hp
            simp only [List.mem_singleton] at hp
            subst hp
            exact ⟨(by decide : '\n' ∉ ("selector".data : Str)), hsel s hc⟩
      · split at hp
        · simp only [List.mem_singleton] at hp
          subst hp
          exact ⟨(by decide : '\n' ∉ ("settleDuration".data : Str)),
            natChars_no_nl cfg.settle_duration⟩
        · simp at hp
    · split at hp
      · simp only [List.mem_singleton] at hp
        subst hp
        exact ⟨(by decide : '\n' ∉ ("useViewTransition".data : Str)),
          (by decide : '\n' ∉ ("true".data : Str))⟩
      · simp at hp
  · obtain ⟨l, hl, hlp⟩ := List.mem_map.mp hp
    subst hlp
    exact ⟨(by decide : '\n' ∉ ("fragments".data : Str)),
      rustLines_no_nl fragments l hl⟩

theorem remove_fragments_pairs_no_nl (selector : Str)
    (cfg : RemoveFragmentsConfig) (hsel : '\n' ∉ selector) :
    ∀ p ∈ remove_fragments_pairs selector cfg, '\n' ∉ p.1 ∧ '\n' ∉ p.2 := by
  intro p hp
  unfold remove_fragments_pairs at hp
  rcases List.mem_append.mp hp with hp | hp
  · rcases List.mem_append.mp hp with hp | hp
    · simp only [List.mem_singleton] at hp
      subst hp
      exact ⟨(by decide : '\n' ∉ ("selector".data : Str)), hsel⟩
    · split at hp
      · simp only [List.mem_singleton] at hp
        subst hp
        exact ⟨(by decide : '\n' ∉ ("settleDuration".data : Str)),
          natChars_no_nl cfg.settle_duration⟩
      · simp at hp
  · split at hp
    · simp only [List.mem_singleton] at hp
      subst hp
      exact ⟨(by decide : '\n' ∉ ("useViewTransition".data : Str)),
        (by decide : '\n' ∉ ("true".data : Str))⟩
    · simp at hp

theorem merge_signals_pairs_no_nl (signals : Str) (cfg : MergeSignalsConfig) :
    ∀ p ∈ merge_signals_pairs signals cfg, '\n' ∉ p.1 ∧ '\n' ∉ p.2 := by
  intro p hp
  unfold merge_signals_pairs at hp
  rcases List.mem_append.mp hp with hp | hp
  · split at hp
    · simp only [List.mem_singleton] at hp
      subst hp
      exact ⟨(by decide : '\n' ∉ ("onlyIfMissing".data : Str)),
        (by decide : '\n' ∉ ("true".data : Str))⟩
    · simp at hp
  · obtain ⟨l, hl, hlp⟩ := List.mem_map.mp hp
    subst hlp
    exact ⟨(by decide : '\n' ∉ ("signals".data : Str)),
      rustLines_no_nl signals l hl⟩

theorem remove_signals_pairs_no_nl (paths : List Str)
    (hpaths : ∀ path ∈ paths, '\n' ∉ path) :
    ∀ p ∈ remove_signals_pairs paths, '\n' ∉ p.1 ∧ '\n' ∉ p.2 := by
  intro p hp
  obtain ⟨l, hl, hlp⟩ := List.mem_map.mp hp
  subst hlp
  exact ⟨(by decide : '\n' ∉ ("paths".data : Str)), hpaths l hl⟩

theorem execute_script_pairs_no_nl (script : Str) (cfg : ExecuteScriptConfig)
    (hattr : ∀ a ∈ cfg.attributes, '\n' ∉ a) :
    ∀ p ∈ execute_script_pairs script cfg, '\n' ∉ p.1 ∧ '\n' ∉ p.2 := by
  intro p hp
  unfold execute_script_pairs at hp
  rcases List.mem_append.mp hp with hp | hp
  · rcases List.mem_append.mp hp with hp | hp
    · split at hp
      · simp only [List.mem_singleton] at hp
        subst hp
        exact ⟨(by decide : '\n' ∉ ("autoRemove".data : Str)),
          (by decide : '\n' ∉ ("false".data : Str))⟩
      · simp at hp
    · obtain ⟨a, ha, hap⟩ := List.mem_map.mp hp
      subst hap
      exact ⟨(by decide : '\n' ∉ ("attributes".data : Str)), hattr a ha⟩
  · obtain ⟨l, hl, hlp⟩ := List.mem_map.mp hp
    subst hlp
    exact ⟨(by decide : '\n' ∉ ("script".data : Str)),
      rustLines_no_nl script l hl⟩

/-! ## Claims -/

/-- C2: the claim that every response conversion carries exactly the headers
`Cache-Control: no-cache`, `Connection: keep-alive` and
`Content-Type: text/event-stream` holds for the two impls in src/response.rs,
but the impl in src/axum.rs writes the `Cache-Control` value `"nocache"`
instead of `"no-cache"`: the code contradicts the fixed header contract. -/
theorem c2_cache_control_header_values :
    (("Cache-Control".data, "no-cache".data) ∈ full_response_headers
      ∧ ("Connection".data, "keep-alive".data) ∈ full_response_headers
      ∧ ("Content-Type".data, "text/event-stream".data) ∈ full_response_headers)
    ∧ (("Cache-Control".data, "no-cache".data) ∈ streaming_response_headers
      ∧ ("Connection".data, "keep-alive".data) ∈ streaming_response_headers
      ∧ ("Content-Type".data, "text/event-stream".data) ∈ streaming_response_headers)
    ∧ ("Cache-Control".data, "nocache".data) ∈ axum_response_headers
    ∧ ("Cache-Control".data, "no-cache".data) ∉ axum_response_headers := by
  refine ⟨⟨?_, ?_, ?_⟩, ⟨?_, ?_, ?_⟩, ?_, ?_⟩ <;> decide

/-- C1 counterexample: `execute_script` with the default-constructed config
does NOT omit every optional data line: since `ExecuteScriptConfig::default`
sets `auto_remove` to `false` and the generator emits the `autoRemove` line
whenever `auto_remove` is false, the default config emits
`data: autoRemove false`, contrary to the claim. -/
theorem c1_counterexample :
    execute_script "x".data ExecuteScriptConfig.default =
      "event: datastar-execute-script\ndata: autoRemove false\ndata: script x\n\n".data
    ∧ execute_script "x".data ExecuteScriptConfig.default ≠
      "event: datastar-execute-script\ndata: script x\n\n".data := by
  constructor <;> decide

/-- C1 (amended): with a default-constructed config, `merge_fragments`,
`remove_fragments`, `merge_signals` and `remove_signals` emit only the
`event:` line, the required data lines for that kind, and the terminating
blank line; `execute_script` additionally emits the single optional line
`data: autoRemove false`, because its Rust default for `auto_remove` is
`false` and the line is emitted exactly when `auto_remove` is false. -/
theorem c1_default_config_blocks :
    (∀ html, merge_fragments html MergeFragmentsConfig.default =
      "event: ".data ++ MERGE_FRAGMENTS ++ ['\n']
        ++ ((rustLines html).map
              (fun l => dataLine ("fragments".data, l) ++ ['\n'])).flatten
        ++ ['\n'])
    ∧ (∀ sel, remove_fragments sel RemoveFragmentsConfig.default =
      "event: ".data ++ REMOVE_FRAGMENTS ++ ['\n']
        ++ (dataLine ("selector".data, sel) ++ ['\n'])
        ++ ['\n'])
    ∧ (∀ sig, merge_signals sig MergeSignalsConfig.default =
      "event: ".data ++ MERGE_SIGNALS ++ ['\n']
        ++ ((rustLines sig).map
              (fun l => dataLine ("signals".data, l) ++ ['\n'])).flatten
        ++ ['\n'])
    ∧ (∀ paths, remove_signals paths RemoveSignalsConfig.default =
      "event: ".data ++ REMOVE_SIGNALS ++ ['\n']
        ++ (paths.map (fun p => dataLine ("paths".data, p) ++ ['\n'])).flatten
        ++ ['\n'])
    ∧ (∀ script, execute_script script ExecuteScriptConfig.default =
      "event: ".data ++ EXECUTE_SCRIPT ++ ['\n']
        ++ (dataLine ("autoRemove".data, "false".data) ++ ['\n'])
        ++ ((rustLines script).map
              (fun l => dataLine ("script".data, l) ++ ['\n'])).flatten
        ++ ['\n']) := by
  refine ⟨fun html => ?_, fun sel => ?_, fun sig => ?_, fun paths => ?_,
    fun script => ?_⟩ <;>
    simp [merge_fragments, remove_fragments, merge_signals, remove_signals,
      execute_script, merge_fragments_pairs, remove_fragments_pairs,
      merge_signals_pairs, remove_signals_pairs, execute_script_pairs,
      MergeFragmentsConfig.default, RemoveFragmentsConfig.default,
      MergeSignalsConfig.default, RemoveSignalsConfig.default,
      ExecuteScriptConfig.default, send, List.map_map, Function.comp_def,
      List.append_assoc]

/-- C3: for every html payload and config (whose string-valued fields are
single-line, as SSE field values are), `merge_fragments` emits its data lines
in exactly the order mergeMode (only if not the default morph), selector
(only if set), settleDuration (only if different from 300), useViewTransition
(only if true), then one fragments line per line of the html; and the
concrete scenario `merge_fragments("<div>hi</div>", defaults)` produces
exactly `"event: datastar-merge-fragments\ndata: fragments <div>hi</div>\n\n"`. -/
theorem c3_merge_fragments_line_order :
    (∀ html cfg,
      (∀ s, cfg.selector = some s → '\n' ∉ s) →
      (∀ x, cfg.event_id = some x → '\n' ∉ x) →
      blockLines (merge_fragments html cfg) =
        ("event: ".data ++ MERGE_FRAGMENTS)
          :: ((match cfg.event_id with
               | some x => ["id: ".data ++ x]
               | none => [])
              ++ (if cfg.retry_duration ≠ DEFAULT_RETRY_DURATION then
                    ["retryDuration: ".data ++ natChars cfg.retry_duration]
                  else [])
              ++ (if cfg.merge_mode ≠ FragmentMergeMode.Morph then
                    [dataLine ("mergeMode".data, cfg.merge_mode.as_datastar_name)]
                  else [])
              ++ (match cfg.selector with
                  | some sel => [dataLine ("selector".data, sel)]
                  | none => [])
              ++ (if cfg.settle_duration ≠ DEFAULT_SETTLE_DURATION then
                    [dataLine ("settleDuration".data, natChars cfg.settle_duration)]
                  else [])
              ++ (if cfg.use_view_transition then
                    [dataLine ("useViewTransition".data, "true".data)]
                  else [])
              ++ (rustLines html).map (fun l => dataLine ("fragments".data, l))
              ++ [[]]))
    ∧ merge_fragments "<div>hi</div>".data MergeFragmentsConfig.default =
        "event: datastar-merge-fragments\ndata: fragments <div>hi</div>\n\n".data := by
  constructor
  · intro html cfg hsel hid
    rw [merge_fragments, blockLines_send MERGE_FRAGMENTS _ cfg.event_id
      cfg.retry_duration (by decide) (fun x hx => hid x hx)
      (merge_fragments_pairs_no_nl html cfg hsel)]
    rw [merge_fragments_pairs]
    rcases cfg.selector with _ | sel <;>
      simp [List.map_append, List.map_map, Function.comp_def,
        List.append_assoc, apply_ite (List.map dataLine)]
  · decide

/-- C3 witness: the line-order statement applied at a concrete html payload
and a concrete fully non-default config. -/
theorem c3_merge_fragments_line_order_witness :
    blockLines (merge_fragments "<p>x</p>".data
      { merge_mode := FragmentMergeMode.Inner
        selector := some "#a".data
        settle_duration := 500
        use_view_transition := true
        event_id := some "e1".data
        retry_duration := 2000 }) =
      ["event: datastar-merge-fragments".data,
       "id: e1".data,
       "retryDuration: 2000".data,
       "data: mergeMode inner".data,
       "data: selector #a".data,
       "data: settleDuration 500".data,
       "data: useViewTransition true".data,
       "data: fragments <p>x</p>".data,
       []] :=
  (c3_merge_fragments_line_order.1 "<p>x</p>".data
    { merge_mode := FragmentMergeMode.Inner
      selector := some "#a".data
      settle_duration := 500
      use_view_transition := true
      event_id := some "e1".data
      retry_duration := 2000 }
    (by intro s hs; cases hs; decide)
    (by intro x hx; cases hx; decide)).trans (by decide)

/-- C4: for every event kind and config (with single-line string fields):
when `event_id` is set the `id:` line appears immediately after the `event:`
line; when `retry_duration` differs from the 1000 ms default the
`retryDuration:` line appears next (and is omitted when equal to 1000); and
both header lines precede every `data:` line of the block. -/
theorem c4_header_lines :
    (∀ html cfg, (∀ s, cfg.selector = some s → '\n' ∉ s) →
      (∀ x, cfg.event_id = some x → '\n' ∉ x) →
      blockLines (merge_fragments html cfg) =
        ("event: ".data ++ MERGE_FRAGMENTS)
          :: ((match cfg.event_id with
               | some x => ["id: ".data ++ x] | none => [])
              ++ (if cfg.retry_duration ≠ DEFAULT_RETRY_DURATION then
                    ["retryDuration: ".data ++ natChars cfg.retry_duration]
                  else [])
              ++ (merge_fragments_pairs html cfg).map dataLine
              ++ [[]]))
    ∧ (∀ sel cfg, '\n' ∉ sel →
      (∀ x, cfg.event_id = some x → '\n' ∉ x) →
      blockLines (remove_fragments sel cfg) =
        ("event: ".data ++ REMOVE_FRAGMENTS)
          :: ((match cfg.event_id with
               | some x => ["id: ".data ++ x] | none => [])
              ++ (if cfg.retry_duration ≠ DEFAULT_RETRY_DURATION then
                    ["retryDuration: ".data ++ natChars cfg.retry_duration]
                  else [])
              ++ (remove_fragments_pairs sel cfg).map dataLine
              ++ [[]]))
    ∧ (∀ sig cfg, (∀ x, cfg.event_id = some x → '\n' ∉ x) →
      blockLines (merge_signals sig cfg) =
        ("event: ".data ++ MERGE_SIGNALS)
          :: ((match cfg.event_id with
               | some x => ["id: ".data ++ x] | none => [])
              ++ (if cfg.retry_duration ≠ DEFAULT_RETRY_DURATION then
                    ["retryDuration: ".data ++ natChars cfg.retry_duration]
                  else [])
              ++ (merge_signals_pairs sig cfg).map dataLine
              ++ [[]]))
    ∧ (∀ paths cfg, (∀ p ∈ paths, '\n' ∉ p) →
      (∀ x, cfg.event_id = some x → '\n' ∉ x) →
      blockLines (remove_signals paths cfg) =
        ("event: ".data ++ REMOVE_SIGNALS)
          :: ((match cfg.event_id with
               | some x => ["id: ".data ++ x] | none => [])
              ++ (if cfg.retry_duration ≠ DEFAULT_RETRY_DURATION then
                    ["retryDuration: ".data ++ natChars cfg.retry_duration]
                  else [])
              ++ (remove_signals_pairs paths).map dataLine
              ++ [[]]))
    ∧ (∀ script cfg, (∀ a ∈ ExecuteScriptConfig.attributes cfg, '\n' ∉ a) →
      (∀ x, cfg.event_id = some x → '\n' ∉ x) →
      blockLines (execute_script script cfg) =
        ("event: ".data ++ EXECUTE_SCRIPT)
          :: ((match cfg.event_id with
               | some x => ["id: ".data ++ x] | none => [])
              ++ (if cfg.retry_duration ≠ DEFAULT_RETRY_DURATION then
                    ["retryDuration: ".data ++ natChars cfg.retry_duration]
                  else [])
              ++ (execute_script_pairs script cfg).map dataLine
              ++ [[]])) := by
  refine ⟨?_, ?_, ?_, ?_, ?_⟩
  · intro html cfg hsel hid
    exact blockLines_send MERGE_FRAGMENTS _ cfg.event_id cfg.retry_duration
      (by decide) hid (merge_fragments_pairs_no_nl html cfg hsel)
  · intro sel cfg hsel hid
    exact blockLines_send REMOVE_FRAGMENTS _ cfg.event_id cfg.retry_duration
      (by decide) hid (remove_fragments_pairs_no_nl sel cfg hsel)
  · intro sig cfg hid
    exact blockLines_send MERGE_SIGNALS _ cfg.event_id cfg.retry_duration
      (by decide) hid (merge_signals_pairs_no_nl sig cfg)
  · intro paths cfg hpaths hid
    exact blockLines_send REMOVE_SIGNALS _ cfg.event_id cfg.retry_duration
      (by decide) hid (remove_signals_pairs_no_nl paths hpaths)
  · intro script cfg hattr hid
    exact blockLines_send EXECUTE_SCRIPT _ cfg.event_id cfg.retry_duration
      (by decide) hid (execute_script_pairs_no_nl script cfg hattr)

/-- C4 witness: the header rule applied to `merge_signals` with a concrete
event id and a non-default retry duration, and to `remove_signals` with the
default retry duration (no `retryDuration:` line). -/
theorem c4_header_lines_witness :
    blockLines (merge_signals "\x7b\"a\":1\x7d".data
      { only_if_missing := false
        event_id := some "77".data
        retry_duration := 3000 }) =
      ["event: datastar-merge-signals".data,
       "id: 77".data,
       "retryDuration: 3000".data,
       "data: signals \x7b\"a\":1\x7d".data,
       []]
    ∧ blockLines (remove_signals ["a.b".data]
      { event_id := some "e2".data
        retry_duration := 1000 }) =
      ["event: datastar-remove-signals".data,
       "id: e2".data,
       "data: paths a.b".data,
       []] :=
  ⟨(c4_header_lines.2.2.1 "\x7b\"a\":1\x7d".data
      { only_if_missing := false
        event_id := some "77".data
        retry_duration := 3000 }
      (by intro x hx; cases hx; decide)).trans (by decide),
   (c4_header_lines.2.2.2.1 ["a.b".data]
      { event_id := some "e2".data
        retry_duration := 1000 }
      (by intro p hp; simp only [List.mem_singleton] at hp; subst hp; decide)
      (by intro x hx; cases hx; decide)).trans (by decide)⟩

theorem append_ne_nil_left {a b : Str} (h : a ≠ []) : a ++ b ≠ [] :=
  fun hc => h (List.append_eq_nil.mp hc).1

theorem dataLine_ne_nil (p : Str × Str) : dataLine p ≠ [] :=
  append_ne_nil_left (append_ne_nil_left (append_ne_nil_left
    (by decide : ("data: ".data : Str) ≠ [])))

theorem id_lines_ne_nil (i : Option Str) :
    ∀ l ∈ ((match i with
            | some x => ["id: ".data ++ x]
            | none => []) : List Str),
      l ≠ [] := by
  rcases i with _ | x
  · simp
  · intro l hl
    simp only [List.mem_singleton] at hl
    subst hl
    exact append_ne_nil_left (by decide : ("id: ".data : Str) ≠ [])

theorem retry_lines_ne_nil (rd : Nat) :
    ∀ l ∈ (if rd ≠ DEFAULT_RETRY_DURATION then
             ["retryDuration: ".data ++ natChars rd] else []),
      l ≠ [] := by
  split
  · intro l hl
    simp only [List.mem_singleton] at hl
    subst hl
    exact append_ne_nil_left (by decide : ("retryDuration: ".data : Str) ≠ [])
  · simp

theorem data_lines_ne_nil (pairs : List (Str × Str)) :
    ∀ l ∈ pairs.map dataLine, l ≠ [] := by
  intro l hl
  obtain ⟨p, _, hpl⟩ := List.mem_map.mp hl
  subst hpl
  exact dataLine_ne_nil p

theorem lines_structure (hd : Str) (A B C : List Str) (hhd : hd ≠ [])
    (hA : ∀ l ∈ A, l ≠ []) (hB : ∀ l ∈ B, l ≠ []) (hC : ∀ l ∈ C, l ≠ []) :
    (hd :: (A ++ B ++ C ++ [[]])).getLast? = some ([] : Str) ∧
    ∀ l ∈ (hd :: (A ++ B ++ C ++ [[]])).dropLast, l ≠ [] := by
  have e : hd :: (A ++ B ++ C ++ [([] : Str)]) = (hd :: (A ++ B ++ C)) ++ [[]] := by
    simp [List.append_assoc]
  rw [e, List.getLast?_concat, List.dropLast_concat]
  refine ⟨rfl, ?_⟩
  intro l hl
  rcases List.mem_cons.mp hl with h | h
  · subst h; exact hhd
  · rcases List.mem_append.mp h with h | h
    · rcases List.mem_append.mp h with h | h
      · exact hA l h
      · exact hB l h
    · exact hC l h

/-- C5 counterexample: the claim fails for payload inputs whose strings embed
newline characters outside the line-split payload position: a `remove_signals`
path containing `"\n\n"` is emitted verbatim inside its `data:` line, which
puts an internal blank line into the block before the terminator. -/
theorem c5_counterexample :
    [] ∈ (blockLines (remove_signals ["a\n\nb".data]
            RemoveSignalsConfig.default)).dropLast ∧
    remove_signals ["a\n\nb".data] RemoveSignalsConfig.default =
      "event: datastar-remove-signals\ndata: paths a\n\nb\n\n".data := by
  constructor <;> decide

/-- C5 (amended): for every event kind, config and payload whose string
fields (selector, event id, attribute strings, signal paths) are single-line
— the payload html/JSON/script may span any number of lines, since it is
split — the encoded block ends with exactly one blank line and every other
line of the block is non-empty. -/
theorem c5_blank_line_invariant :
    (∀ html cfg, (∀ s, cfg.selector = some s → '\n' ∉ s) →
      (∀ x, cfg.event_id = some x → '\n' ∉ x) →
      (blockLines (merge_fragments html cfg)).getLast? = some [] ∧
      ∀ l ∈ (blockLines (merge_fragments html cfg)).dropLast, l ≠ [])
    ∧ (∀ sel cfg, '\n' ∉ sel →
      (∀ x, cfg.event_id = some x → '\n' ∉ x) →
      (blockLines (remove_fragments sel cfg)).getLast? = some [] ∧
      ∀ l ∈ (blockLines (remove_fragments sel cfg)).dropLast, l ≠ [])
    ∧ (∀ sig cfg, (∀ x, cfg.event_id = some x → '\n' ∉ x) →
      (blockLines (merge_signals sig cfg)).getLast? = some [] ∧
      ∀ l ∈ (blockLines (merge_signals sig cfg)).dropLast, l ≠ [])
    ∧ (∀ paths cfg, (∀ p ∈ paths, '\n' ∉ p) →
      (∀ x, cfg.event_id = some x → '\n' ∉ x) →
      (blockLines (remove_signals paths cfg)).getLast? = some [] ∧
      ∀ l ∈ (blockLines (remove_signals paths cfg)).dropLast, l ≠ [])
    ∧ (∀ script cfg, (∀ a ∈ ExecuteScriptConfig.attributes cfg, '\n' ∉ a) →
      (∀ x, cfg.event_id = some x → '\n' ∉ x) →
      (blockLines (execute_script script cfg)).getLast? = some [] ∧
      ∀ l ∈ (blockLines (execute_script script cfg)).dropLast, l ≠ []) := by
  refine ⟨?_, ?_, ?_, ?_, ?_⟩
  · intro html cfg hsel hid
    rw [merge_fragments, blockLines_send MERGE_FRAGMENTS _ cfg.event_id
      cfg.retry_duration (by decide) hid
      (merge_fragments_pairs_no_nl html cfg hsel)]
    exact lines_structure _ _ _ _ (by decide) (id_lines_ne_nil _)
      (retry_lines_ne_nil _) (data_lines_ne_nil _)
  · intro sel cfg hsel hid
    rw [remove_fragments, blockLines_send REMOVE_FRAGMENTS _ cfg.event_id
      cfg.retry_duration (by decide) hid
      (remove_fragments_pairs_no_nl sel cfg hsel)]
    exact lines_structure _ _ _ _ (by decide) (id_lines_ne_nil _)
      (retry_lines_ne_nil _) (data_lines_ne_nil _)
  · intro sig cfg hid
    rw [merge_signals, blockLines_send MERGE_SIGNALS _ cfg.event_id
      cfg.retry_duration (by decide) hid (merge_signals_pairs_no_nl sig cfg)]
    exact lines_structure _ _ _ _ (by decide) (id_lines_ne_nil _)
      (retry_lines_ne_nil _) (data_lines_ne_nil _)
  · intro paths cfg hpaths hid
    rw [remove_signals, blockLines_send REMOVE_SIGNALS _ cfg.event_id
      cfg.retry_duration (by decide) hid (remove_signals_pairs_no_nl paths hpaths)]
    exact lines_structure _ _ _ _ (by decide) (id_lines_ne_nil _)
      (retry_lines_ne_nil _) (data_lines_ne_nil _)
  · intro script cfg hattr hid
    rw [execute_script, blockLines_send EXECUTE_SCRIPT _ cfg.event_id
      cfg.retry_duration (by decide) hid
      (execute_script_pairs_no_nl script cfg hattr)]
    exact lines_structure _ _ _ _ (by decide) (id_lines_ne_nil _)
      (retry_lines_ne_nil _) (data_lines_ne_nil _)

/-- C5 witness: the blank-line invariant applied to a concrete multi-line
`merge_fragments` payload with a non-default config. -/
theorem c5_blank_line_invariant_witness :
    (blockLines (merge_fragments "<div>\n<p>a</p>\n</div>".data
      { merge_mode := FragmentMergeMode.Append
        selector := some "#list".data
        settle_duration := 300
        use_view_transition := false
        event_id := some "9".data
        retry_duration := 1000 })).getLast? = some [] ∧
    ∀ l ∈ (blockLines (merge_fragments "<div>\n<p>a</p>\n</div>".data
      { merge_mode := FragmentMergeMode.Append
        selector := some "#list".data
        settle_duration := 300
        use_view_transition := false
        event_id := some "9".data
        retry_duration := 1000 })).dropLast, l ≠ [] :=
  c5_blank_line_invariant.1 "<div>\n<p>a</p>\n</div>".data
    { merge_mode := FragmentMergeMode.Append
      selector := some "#list".data
      settle_duration := 300
      use_view_transition := false
      event_id := some "9".data
      retry_duration := 1000 }
    (by intro s hs; cases hs; decide)
    (by intro x hx; cases hx; decide)

theorem filter_key_self (key : Str) (vals : List Str) :
    ((vals.map fun v => (key, v)).filter fun p => p.1 == key) =
      vals.map fun v => (key, v) := by
  rw [List.filter_map]
  have h : ((fun p : Str × Str => p.1 == key) ∘ fun v => (key, v)) =
      fun _ => true := by
    funext v
    simp
  rw [h, List.filter_true]

/-- C6: for each of the three payload-splitting operations, the data pairs
carrying the payload key are exactly the lines of the input, in order — so
the number of emitted `data:` lines under that key equals the number of
input lines and the line order is preserved. -/
theorem c6_payload_line_count_and_order :
    (∀ html cfg,
      ((merge_fragments_pairs html cfg).filter fun p => p.1 == "fragments".data) =
        (rustLines html).map (fun l => ("fragments".data, l)) ∧
      ((merge_fragments_pairs html cfg).filter
          fun p => p.1 == "fragments".data).length = (rustLines html).length)
    ∧ (∀ sig cfg,
      ((merge_signals_pairs sig cfg).filter fun p => p.1 == "signals".data) =
        (rustLines sig).map (fun l => ("signals".data, l)) ∧
      ((merge_signals_pairs sig cfg).filter
          fun p => p.1 == "signals".data).length = (rustLines sig).length)
    ∧ (∀ script cfg,
      ((execute_script_pairs script cfg).filter fun p => p.1 == "script".data) =
        (rustLines script).map (fun l => ("script".data, l)) ∧
      ((execute_script_pairs script cfg).filter
          fun p => p.1 == "script".data).length = (rustLines script).length) := by
  refine ⟨?_, ?_, ?_⟩
  · intro html cfg
    have he : ((merge_fragments_pairs html cfg).filter
        fun p => p.1 == "fragments".data) =
        (rustLines html).map (fun l => ("fragments".data, l)) := by
      unfold merge_fragments_pairs
      rw [List.filter_append, List.filter_eq_nil_iff.mpr ?hnil, List.nil_append,
        filter_key_self]
      case hnil =>
        intro p hp
        rcases List.mem_append.mp hp with hp | hp
        · rcases List.mem_append.mp hp with hp | hp
          · rcases List.mem_append.mp hp with hp | hp
            · split at hp
              · simp only [List.mem_singleton] at hp
                subst hp
                exact (by decide :
                  ¬(("mergeMode".data : Str) == "fragments".data) = true)
              · simp at hp
            · rcases hc : cfg.selector with _ | sel <;> rw [hc] at hp
              · simp at hp
              · simp only [List.mem_singleton] at hp
                subst hp
                exact (by decide :
                  ¬(("selector".data : Str) == "fragments".data) = true)
          · split at hp
            · simp only [List.mem_singleton] at hp
              subst hp
              exact (by decide :
                ¬(("settleDuration".data : Str) == "fragments".data) = true)
            · simp at hp
        · split at hp
          · simp only [List.mem_singleton] at hp
            subst hp
            exact (by decide :
              ¬(("useViewTransition".data : Str) == "fragments".data) = true)
          · simp at hp
    exact ⟨he, by rw [he, List.length_map]⟩
  · intro sig cfg
    have he : ((merge_signals_pairs sig cfg).filter
        fun p => p.1 == "signals".data) =
        (rustLines sig).map (fun l => ("signals".data, l)) := by
      unfold merge_signals_pairs
      rw [List.filter_append, List.filter_eq_nil_iff.mpr ?hnil, List.nil_append,
        filter_key_self]
      case hnil =>
        intro p hp
        split at hp
        · simp only [List.mem_singleton] at hp
          subst hp
          exact (by decide :
            ¬(("onlyIfMissing".data : Str) == "signals".data) = true)
        · simp at hp
    exact ⟨he, by rw [he, List.length_map]⟩
  · intro script cfg
    have he : ((execute_script_pairs script cfg).filter
        fun p => p.1 == "script".data) =
        (rustLines script).map (fun l => ("script".data, l)) := by
      unfold execute_script_pairs
      rw [List.filter_append, List.filter_eq_nil_iff.mpr ?hnil, List.nil_append,
        filter_key_self]
      case hnil =>
        intro p hp
        rcases List.mem_append.mp hp with hp | hp
        · split at hp
          · simp only [List.mem_singleton] at hp
            subst hp
            exact (by decide :
              ¬(("autoRemove".data : Str) == "script".data) = true)
          · simp at hp
        · obtain ⟨a, _, hap⟩ := List.mem_map.mp hp
          subst hap
          exact (by decide :
            ¬(("attributes".data : Str) == "script".data) = true)
    exact ⟨he, by rw [he, List.length_map]⟩

/-- C7: GET extraction: when the `datastar` query parameter parses into the
target shape the extraction succeeds with that value; a missing `datastar`
parameter yields the distinct not-found variant; a present parameter whose
value does not parse yields the distinct inner-json variant; an unparsable
query string yields the third variant; every rejection maps to status 400
and the body messages distinguish the cause; and the two concrete scenarios
from the spec hold for the modelled serde parsers. -/
theorem c7_query_extraction :
    (∀ (T : Type) (up : Str → Option (List (Str × Str))) (jp : Str → Option T)
        (q : Option Str) (params : List (Str × Str)) (v : Str) (t : T),
      up (q.getD []) = some params →
      (params.find? fun kv => kv.1 = "datastar".data).map (fun kv => kv.2) =
        some v →
      jp v = some t →
      try_from_uri up jp q = .ok t)
    ∧ (∀ (T : Type) (up : Str → Option (List (Str × Str)))
        (jp : Str → Option T) (q : Option Str) (params : List (Str × Str)),
      up (q.getD []) = some params →
      (params.find? fun kv => kv.1 = "datastar".data) = none →
      try_from_uri up jp q = .error .DatastarQueryNotFound)
    ∧ (∀ (T : Type) (up : Str → Option (List (Str × Str)))
        (jp : Str → Option T) (q : Option Str) (params : List (Str × Str))
        (v : Str),
      up (q.getD []) = some params →
      (params.find? fun kv => kv.1 = "datastar".data).map (fun kv => kv.2) =
        some v →
      jp v = none →
      try_from_uri up jp q = .error .FailedToDeserializeDatastarInnerJson)
    ∧ (∀ (T : Type) (up : Str → Option (List (Str × Str)))
        (jp : Str → Option T) (q : Option Str),
      up (q.getD []) = none →
      try_from_uri up jp q = .error .FailedToDeserializeDatastarQueryString)
    ∧ (∀ r : DatastarQueryRejection, r.response.1 = 400)
    ∧ (∀ r r' : DatastarQueryRejection, r.msg = r'.msg → r = r')
    ∧ try_from_uri urlencoded_simple parse_theme_json
        (some "datastar=\x7b\"theme\":\"dark\"\x7d".data) = .ok "dark".data
    ∧ try_from_uri urlencoded_simple parse_theme_json (some "foo=1".data) =
        .error .DatastarQueryNotFound := by
  refine ⟨?_, ?_, ?_, ?_, ?_, ?_, ?_, ?_⟩
  · intro T up jp q params v t hup hfind hjp
    simp only [try_from_uri, hup, hfind, hjp]
  · intro T up jp q params hup hfind
    simp only [try_from_uri, hup, hfind]
    rfl
  · intro T up jp q params v hup hfind hjp
    simp only [try_from_uri, hup, hfind, hjp]
  · intro T up jp q hup
    simp only [try_from_uri, hup]
  · intro r
    rfl
  · intro r r' h
    cases r <;> cases r' <;> first | rfl | exact absurd h (by decide)
  · rfl
  · rfl

/-- C7 witness: the success and not-found cases applied at the concrete
scenario inputs of the spec, with the modelled serde parsers. -/
theorem c7_query_extraction_witness :
    try_from_uri urlencoded_simple parse_theme_json
      (some "datastar=\x7b\"theme\":\"dark\"\x7d".data) = .ok "dark".data
    ∧ try_from_uri urlencoded_simple parse_theme_json (some "foo=1".data) =
      .error .DatastarQueryNotFound :=
  ⟨c7_query_extraction.1 Str urlencoded_simple parse_theme_json
      (some "datastar=\x7b\"theme\":\"dark\"\x7d".data)
      [("datastar".data, "\x7b\"theme\":\"dark\"\x7d".data)]
      "\x7b\"theme\":\"dark\"\x7d".data "dark".data
      (by decide) (by decide) (by decide),
   c7_query_extraction.2.1 Str urlencoded_simple parse_theme_json
      (some "foo=1".data) [("foo".data, "1".data)]
      (by decide) (by decide)⟩

/-- C8 counterexample: the two body-extraction failure variants are distinct,
but `DatastarJsonRejection::into_response` builds the same 400 response with
the same body message for both, so the resulting responses do NOT distinguish
the cause, contrary to the claim. -/
theorem c8_counterexample :
    DatastarJsonRejection.response .FailedToDecodeBytes =
      DatastarJsonRejection.response .FailedToDeserializeJson
    ∧ DatastarJsonRejection.FailedToDecodeBytes ≠
      DatastarJsonRejection.FailedToDeserializeJson := by
  exact ⟨rfl, by decide⟩

/-- C8 (amended): for non-GET requests, body-read failure and JSON-parse
failure are distinguished as distinct error variants, and both are surfaced
as a 400 response — but with the identical body message
`"Failed to deserialize json body"`, so the response itself does not
distinguish the cause. -/
theorem c8_json_extraction :
    (∀ (T : Type) (jp : Str → Option T),
      from_request none jp = .error .FailedToDecodeBytes)
    ∧ (∀ (T : Type) (jp : Str → Option T) (b : Str),
      jp b = none →
      from_request (some b) jp = .error .FailedToDeserializeJson)
    ∧ (∀ (T : Type) (jp : Str → Option T) (b : Str) (t : T),
      jp b = some t → from_request (some b) jp = .ok t)
    ∧ (∀ r : DatastarJsonRejection,
      r.response = (400, "Failed to deserialize json body".data))
    ∧ DatastarJsonRejection.FailedToDecodeBytes ≠
      DatastarJsonRejection.FailedToDeserializeJson := by
  refine ⟨?_, ?_, ?_, ?_, by decide⟩
  · intro T jp
    rfl
  · intro T jp b hjp
    simp only [from_request, hjp]
  · intro T jp b t hjp
    simp only [from_request, hjp]
  · intro r
    rfl

/-- C8 witness: the JSON-parse-failure case applied at a concrete
non-JSON body. -/
theorem c8_json_extraction_witness :
    from_request (some "not json".data) parse_theme_json =
      Except.error DatastarJsonRejection.FailedToDeserializeJson :=
  c8_json_extraction.2.1 Str parse_theme_json "not json".data (by decide)

theorem send_ne_nil (et : Str) (pairs : List (Str × Str)) (i : Option Str)
    (rd : Nat) : send et pairs i rd ≠ [] := by
  unfold send
  exact append_ne_nil_left (append_ne_nil_left (append_ne_nil_left
    (append_ne_nil_left (append_ne_nil_left (append_ne_nil_left
      (by decide : ("event: ".data : Str) ≠ []))))))

/-- C9: a duration setter fails (models the panicking `expect`) exactly when
the millisecond value exceeds `u32::MAX`, and otherwise stores exactly that
millisecond value; the encode operations themselves always produce a
(non-empty) block for every stored duration value. -/
theorem c9_duration_setter_range :
    (∀ cfg millis,
      (MergeFragmentsConfig.retry_duration_set cfg millis = none ↔
        U32_MAX < millis)
      ∧ ∀ cfg2, MergeFragmentsConfig.retry_duration_set cfg millis = some cfg2 →
          cfg2.retry_duration = millis)
    ∧ (∀ cfg millis,
      (MergeFragmentsConfig.settle_duration_set cfg millis = none ↔
        U32_MAX < millis)
      ∧ ∀ cfg2, MergeFragmentsConfig.settle_duration_set cfg millis = some cfg2 →
          cfg2.settle_duration = millis)
    ∧ (∀ cfg millis,
      (ExecuteScriptConfig.retry_duration_set cfg millis = none ↔
        U32_MAX < millis)
      ∧ ∀ cfg2, ExecuteScriptConfig.retry_duration_set cfg millis = some cfg2 →
          cfg2.retry_duration = millis)
    ∧ (∀ html cfg, merge_fragments html cfg ≠ [])
    ∧ (∀ script cfg, execute_script script cfg ≠ []) := by
  refine ⟨?_, ?_, ?_, ?_, ?_⟩
  · intro cfg millis
    constructor
    · simp [MergeFragmentsConfig.retry_duration_set, ite_eq_right_iff,
        Nat.not_le]
    · intro cfg2 h
      unfold MergeFragmentsConfig.retry_duration_set at h
      split at h
      · cases h
        rfl
      · exact Option.noConfusion h
  · intro cfg millis
    constructor
    · simp [MergeFragmentsConfig.settle_duration_set, ite_eq_right_iff,
        Nat.not_le]
    · intro cfg2 h
      unfold MergeFragmentsConfig.settle_duration_set at h
      split at h
      · cases h
        rfl
      · exact Option.noConfusion h
  · intro cfg millis
    constructor
    · simp [ExecuteScriptConfig.retry_duration_set, ite_eq_right_iff,
        Nat.not_le]
    · intro cfg2 h
      unfold ExecuteScriptConfig.retry_duration_set at h
      split at h
      · cases h
        rfl
      · exact Option.noConfusion h
  · intro html cfg
    exact send_ne_nil _ _ _ _
  · intro script cfg
    exact send_ne_nil _ _ _ _

/-- C9 witness: one millisecond past `u32::MAX` makes the builder call fail,
and an in-range value is stored exactly. -/
theorem c9_duration_setter_range_witness :
    MergeFragmentsConfig.retry_duration_set MergeFragmentsConfig.default
      4294967296 = none
    ∧ ({ MergeFragmentsConfig.default with retry_duration := 2000 } :
        MergeFragmentsConfig).retry_duration = 2000 :=
  ⟨(c9_duration_setter_range.1 MergeFragmentsConfig.default 4294967296).1.mpr
      (by decide),
   (c9_duration_setter_range.1 MergeFragmentsConfig.default 2000).2 _
      (by decide)⟩

theorem stripCR_cons (c : Char) {p : Str} (hp : p ≠ []) :
    stripCR (c :: p) = c :: stripCR p := by
  obtain ⟨x, xs, rfl⟩ := List.exists_cons_of_ne_nil hp
  unfold stripCR
  rw [List.getLast?_cons_cons]
  split
  · rw [List.dropLast_cons_of_ne_nil (List.cons_ne_nil x xs)]
  · rfl

theorem getLastD_irrel {l : List Str} (h : l ≠ []) (a b : Str) :
    l.getLastD a = l.getLastD b := by
  rw [List.getLastD_eq_getLast?, List.getLastD_eq_getLast?,
    List.getLast?_eq_getLast_of_ne_nil h]
  rfl

theorem crOnly_splitOnChar (s : Str) (h : crOnlyBeforeNl s) :
    (∀ p ∈ (splitOnChar '\n' s).dropLast, '\r' ∉ stripCR p) ∧
    '\r' ∉ (splitOnChar '\n' s).getLastD [] := by
  induction s with
  | nil =>
    constructor
    · intro p hp
      simp [splitOnChar] at hp
    · simp [splitOnChar]
  | cons c cs ih =>
    obtain ⟨h1, h2⟩ := h
    obtain ⟨ih1, ih2⟩ := ih h2
    by_cases hc : c = '\n'
    · have e : splitOnChar '\n' (c :: cs) = [] :: splitOnChar '\n' cs := by
        simp [splitOnChar, hc]
      rw [e]
      have hne := splitOnChar_ne_nil '\n' cs
      constructor
      · intro p hp
        rw [List.dropLast_cons_of_ne_nil hne] at hp
        rcases List.mem_cons.mp hp with hp | hp
        · subst hp
          simp [stripCR]
        · exact ih1 p hp
      · rw [List.getLastD_cons]
        exact ih2
    · cases hps : splitOnChar '\n' cs with
      | nil => exact absurd hps (splitOnChar_ne_nil '\n' cs)
      | cons p ps =>
        have e : splitOnChar '\n' (c :: cs) = (c :: p) :: ps := by
          simp [splitOnChar, hc, hps]
        rw [e]
        rw [hps] at ih1 ih2
        by_cases hcr : c = '\r'
        · obtain ⟨cs₂, hcs⟩ := List.head?_eq_some_iff.mp (h1 hcr)
          have e2 : splitOnChar '\n' cs = [] :: splitOnChar '\n' cs₂ := by
            rw [hcs]
            simp [splitOnChar]
          rw [hps] at e2
          injection e2 with ep eps
          subst ep
          have hpsne : ps ≠ [] := by
            rw [eps]
            exact splitOnChar_ne_nil '\n' cs₂
          constructor
          · intro q hq
            rw [List.dropLast_cons_of_ne_nil hpsne] at hq
            rcases List.mem_cons.mp hq with hq | hq
            · subst hq
              rw [hcr]
              decide
            · apply ih1 q
              rw [List.dropLast_cons_of_ne_nil hpsne]
              exact List.mem_cons_of_mem _ hq
          · rw [List.getLastD_cons, getLastD_irrel hpsne _ []]
            rw [List.getLastD_cons, getLastD_irrel hpsne _ []] at ih2
            exact ih2
        · constructor
          · intro q hq
            by_cases hpsn : ps = []
            · subst hpsn
              simp at hq
            · rw [List.dropLast_cons_of_ne_nil hpsn] at hq
              rcases List.mem_cons.mp hq with hq | hq
              · subst hq
                by_cases hpn : p = []
                · subst hpn
                  have hs : stripCR [c] = [c] := by
                    unfold stripCR
                    rw [if_neg]
                    rw [List.getLast?_singleton]
                    simp [hcr]
                  intro hm
                  rw [hs, List.mem_singleton] at hm
                  exact hcr hm.symm
                · rw [stripCR_cons c hpn]
                  intro hm
                  rcases List.mem_cons.mp hm with hm | hm
                  · exact hcr hm.symm
                  · exact ih1 p
                      (by rw [List.dropLast_cons_of_ne_nil hpsn]
                          exact List.mem_cons_self p _) hm
              · exact ih1 q
                  (by rw [List.dropLast_cons_of_ne_nil hpsn]
                      exact List.mem_cons_of_mem _ hq)
          · rw [List.getLastD_cons]
            by_cases hpsn : ps = []
            · subst hpsn
              rw [List.getLastD_nil]
              intro hm
              rcases List.mem_cons.mp hm with hm | hm
              · exact hcr hm.symm
              · rw [List.getLastD_cons, List.getLastD_nil] at ih2
                exact ih2 hm
            · rw [getLastD_irrel hpsn _ []]
              rw [List.getLastD_cons, getLastD_irrel hpsn _ []] at ih2
              exact ih2

theorem crOnly_rustLines (s : Str) (h : crOnlyBeforeNl s) :
    ∀ l ∈ rustLines s, '\r' ∉ l := by
  intro l hl
  obtain ⟨h1, h2⟩ := crOnly_splitOnChar s h
  unfold rustLines at hl
  rcases List.mem_append.mp hl with hl | hl
  · obtain ⟨p, hp, hpl⟩ := List.mem_map.mp hl
    subst hpl
    exact h1 p hp
  · split at hl
    · simp at hl
    · simp only [List.mem_singleton] at hl
      subst hl
      exact h2

theorem no_cr_send_default (et : Str) (pairs : List (Str × Str))
    (het : '\r' ∉ et)
    (hp : ∀ p ∈ pairs, '\r' ∉ p.1 ∧ '\r' ∉ p.2) :
    '\r' ∉ send et pairs none DEFAULT_RETRY_DURATION := by
  have e : send et pairs none DEFAULT_RETRY_DURATION =
      "event: ".data ++ et ++ ['\n']
        ++ (pairs.map fun p => dataLine p ++ ['\n']).flatten ++ ['\n'] := by
    simp [send]
  rw [e]
  intro hc
  rcases List.mem_append.mp hc with hc | hc
  · rcases List.mem_append.mp hc with hc | hc
    · rcases List.mem_append.mp hc with hc | hc
      · rcases List.mem_append.mp hc with hc | hc
        · revert hc
          decide
        · exact het hc
      · revert hc
        decide
    · obtain ⟨l, hl, hcl⟩ := List.mem_flatten.mp hc
      obtain ⟨p, hpm, hpl⟩ := List.mem_map.mp hl
      subst hpl
      rcases List.mem_append.mp hcl with hcl | hcl
      · unfold dataLine at hcl
        rcases List.mem_append.mp hcl with hm | hm
        · rcases List.mem_append.mp hm with hm | hm
          · rcases List.mem_append.mp hm with hm | hm
            · revert hm
              decide
            · exact (hp p hpm).1 hm
          · revert hm
            decide
        · exact (hp p hpm).2 hm
      · revert hcl
        decide
  · revert hc
    decide

/-- C10: for every payload consisting of CRLF-terminated (or LF-terminated)
lines — every carriage return is immediately followed by a line feed — the
line split strips the trailing carriage returns, so the payload-carrying data
pairs of `merge_fragments`, `merge_signals` and `execute_script` contain no
carriage return, and (with default configs) the whole encoded block contains
no carriage-return character at all. -/
theorem c10_crlf_payload_stripped :
    ∀ s, crOnlyBeforeNl s →
      (∀ cfg l, ("fragments".data, l) ∈ merge_fragments_pairs s cfg →
        '\r' ∉ l)
      ∧ (∀ cfg l, ("signals".data, l) ∈ merge_signals_pairs s cfg → '\r' ∉ l)
      ∧ (∀ cfg l, ("script".data, l) ∈ execute_script_pairs s cfg → '\r' ∉ l)
      ∧ '\r' ∉ merge_fragments s MergeFragmentsConfig.default
      ∧ '\r' ∉ merge_signals s MergeSignalsConfig.default
      ∧ '\r' ∉ execute_script s ExecuteScriptConfig.default := by
  intro s hs
  have hcr := crOnly_rustLines s hs
  have emf : merge_fragments_pairs s MergeFragmentsConfig.default =
      (rustLines s).map (fun l => ("fragments".data, l)) := by
    simp [merge_fragments_pairs, MergeFragmentsConfig.default]
  have ems : merge_signals_pairs s MergeSignalsConfig.default =
      (rustLines s).map (fun l => ("signals".data, l)) := by
    simp [merge_signals_pairs, MergeSignalsConfig.default]
  have ees : execute_script_pairs s ExecuteScriptConfig.default =
      ("autoRemove".data, "false".data)
        :: (rustLines s).map (fun l => ("script".data, l)) := by
    simp [execute_script_pairs, ExecuteScriptConfig.default]
  refine ⟨?_, ?_, ?_, ?_, ?_, ?_⟩
  · intro cfg l hp
    unfold merge_fragments_pairs at hp
    rcases List.mem_append.mp hp with hp | hp
    · rcases List.mem_append.mp hp with hp | hp
      · rcases List.mem_append.mp hp with hp | hp
        · rcases List.mem_append.mp hp with hp | hp
          · split at hp
            · simp only [List.mem_singleton] at hp
              exact absurd (congrArg Prod.fst hp)
                (by decide :
                  ¬("fragments".data : Str) = "mergeMode".data)
            · simp at hp
          · rcases hcsel : cfg.selector with _ | sel <;> rw [hcsel] at hp
            · simp at hp
            · simp only [List.mem_singleton] at hp
              exact absurd (congrArg Prod.fst hp)
                (by decide : ¬("fragments".data : Str) = "selector".data)
        · split at hp
          · simp only [List.mem_singleton] at hp
            exact absurd (congrArg Prod.fst hp)
              (by decide :
                ¬("fragments".data : Str) = "settleDuration".data)
          · simp at hp
      · split at hp
        · simp only [List.mem_singleton] at hp
          exact absurd (congrArg Prod.fst hp)
            (by decide :
              ¬("fragments".data : Str) = "useViewTransition".data)
        · simp at hp
    · obtain ⟨x, hx, he⟩ := List.mem_map.mp hp
      have hv : x = l := congrArg Prod.snd he
      subst hv
      exact hcr x hx
  · intro cfg l hp
    unfold merge_signals_pairs at hp
    rcases List.mem_append.mp hp with hp | hp
    · split at hp
      · simp only [List.mem_singleton] at hp
        exact absurd (congrArg Prod.fst hp)
          (by decide : ¬("signals".data : Str) = "onlyIfMissing".data)
      · simp at hp
    · obtain ⟨x, hx, he⟩ := List.mem_map.mp hp
      have hv : x = l := congrArg Prod.snd he
      subst hv
      exact hcr x hx
  · intro cfg l hp
    unfold execute_script_pairs at hp
    rcases List.mem_append.mp hp with hp | hp
    · rcases List.mem_append.mp hp with hp | hp
      · split at hp
        · simp only [List.mem_singleton] at hp
          exact absurd (congrArg Prod.fst hp)
            (by decide : ¬("script".data : Str) = "autoRemove".data)
        · simp at hp
      · obtain ⟨a, _, he⟩ := List.mem_map.mp hp
        exact absurd (congrArg Prod.fst he.symm)
          (by decide : ¬("script".data : Str) = "attributes".data)
    · obtain ⟨x, hx, he⟩ := List.mem_map.mp hp
      have hv : x = l := congrArg Prod.snd he
      subst hv
      exact hcr x hx
  · rw [merge_fragments, emf]
    exact no_cr_send_default _ _ (by decide)
      (fun p hp => by
        obtain ⟨x, hx, hpl⟩ := List.mem_map.mp hp
        subst hpl
        exact ⟨(by decide : '\r' ∉ ("fragments".data : Str)), hcr x hx⟩)
  · rw [merge_signals, ems]
    exact no_cr_send_default _ _ (by decide)
      (fun p hp => by
        obtain ⟨x, hx, hpl⟩ := List.mem_map.mp hp
        subst hpl
        exact ⟨(by decide : '\r' ∉ ("signals".data : Str)), hcr x hx⟩)
  · rw [execute_script, ees]
    exact no_cr_send_default _ _ (by decide)
      (fun p hp => by
        rcases List.mem_cons.mp hp with hp | hp
        · subst hp
          exact ⟨(by decide : '\r' ∉ ("autoRemove".data : Str)),
            (by decide : '\r' ∉ ("false".data : Str))⟩
        · obtain ⟨x, hx, hpl⟩ := List.mem_map.mp hp
          subst hpl
          exact ⟨(by decide : '\r' ∉ ("script".data : Str)), hcr x hx⟩)

/-- C10 witness: a concrete CRLF-terminated payload encodes to a block with
no carriage return. -/
theorem c10_crlf_payload_stripped_witness :
    crOnlyBeforeNl "\x7b\r\n\"a\": 1\r\n\x7d\r\n".data ∧
    '\r' ∉ merge_signals "\x7b\r\n\"a\": 1\r\n\x7d\r\n".data
      MergeSignalsConfig.default :=
  ⟨by decide,
   (c10_crlf_payload_stripped "\x7b\r\n\"a\": 1\r\n\x7d\r\n".data
     (by decide)).2.2.2.2.1⟩
